import Mathlib

/-!
Verification of the settings/render pipeline in `src/src/app.tsx`
(`ShikiEditor`): numeric input codec, render-time defaults, the
highlight effect (language/theme fallback, background-color extraction,
color-scheme derivation), the tab-key handler, and the image exporter.
Numbers entered through the numeric inputs are decimals with at most two
fraction digits, so they are modelled exactly as rationals; strings are
modelled as Lean strings (lists of characters).
-/

namespace CodeSalt

/-- The regex `^[0-9]+(\.[0-9]{1,2})?$` used by `numericInputCodec`
(app.tsx line 28) and as the `pattern` attribute of the scale, spacing
and blur inputs: one or more digits, optionally followed by a dot and
one or two digits. -/
def matchesNumericPattern (s : String) : Bool :=
  let p := s.toList.span Char.isDigit
  !p.1.isEmpty &&
    (match p.2 with
     | [] => true
     | '.' :: r => (r.length == 1 || r.length == 2) && r.all Char.isDigit
     | _ => false)

/-- Numeric value of a digit character. -/
def digitVal (c : Char) : Nat := c.toNat - 48

/-- Value of a digit string, most significant digit first. -/
def digitsToNat (l : List Char) : Nat :=
  l.foldl (fun acc c => 10 * acc + digitVal c) 0

/-- JavaScript `Number(str)` restricted to strings matching the numeric
pattern: the exact decimal value `int.frac`, as a rational. -/
def decodeNumeric (s : String) : ℚ :=
  let p := s.toList.span Char.isDigit
  match p.2 with
  | '.' :: r => mkRat (digitsToNat p.1 * 10 ^ r.length + digitsToNat r) (10 ^ r.length)
  | _ => (digitsToNat p.1 : ℚ)

/-- `numericInputCodec.safeDecode` (app.tsx lines 27-34): the input must
match the regex, the decoded number must satisfy `z.number().positive()`;
otherwise decoding fails. -/
def numericInputCodec.safeDecode (s : String) : Option ℚ :=
  if matchesNumericPattern s then
    if 0 < decodeNumeric s then some (decodeNumeric s) else none
  else none

/-- The `onChange` handler shared (verbatim, up to the field touched) by
the scale (app.tsx lines 493-503), spacing (lines 518-528) and blur
(lines 543-553) inputs: the empty string stores `undefined` (absent), a
successful decode stores the decoded number, and a failed decode leaves
the stored value untouched. -/
def numericFieldOnChange (current : Option ℚ) (value : String) : Option ℚ :=
  if value = "" then none
  else
    match numericInputCodec.safeDecode value with
    | some n => some n
    | none => current

/-- C1 counterexample: with 2 stored, entering the invalid string "abc"
keeps the old value 2 instead of clearing the field to absent. -/
theorem numericFieldOnChange_invalid_keeps_old :
    numericFieldOnChange (some 2) "abc" = some 2 ∧ (some (2 : ℚ) ≠ none) := by
  exact ⟨rfl, by simp⟩

/-- C1 (amended): entering a valid numeric string stores the decoded
number (so reading it back yields that same numeric value, the decimal
value of the string); entering the empty string clears the field to
absent; entering any other invalid string leaves the field unchanged (in
particular no malformed value is ever stored). -/
theorem numericFieldOnChange_spec (cur : Option ℚ) (s : String) :
    (∀ v, numericInputCodec.safeDecode s = some v →
      numericFieldOnChange cur s = some v ∧ v = decodeNumeric s) ∧
    (s = "" → numericFieldOnChange cur s = none) ∧
    (s ≠ "" → numericInputCodec.safeDecode s = none →
      numericFieldOnChange cur s = cur) := by
  refine ⟨?_, ?_, ?_⟩
  · intro v hv
    have hs : s ≠ "" := by
      intro h
      rw [h] at hv
      simp [numericInputCodec.safeDecode, matchesNumericPattern] at hv
    have hval : v = decodeNumeric s := by
      unfold numericInputCodec.safeDecode at hv
      split at hv
      · split at hv
        · exact (Option.some.injEq _ _ ▸ hv).symm
        · exact absurd hv (by simp)
      · exact absurd hv (by simp)
    refine ⟨?_, hval⟩
    unfold numericFieldOnChange
    rw [if_neg hs, hv]
  · intro h
    unfold numericFieldOnChange
    rw [if_pos h]
  · intro hs hnone
    unfold numericFieldOnChange
    rw [if_neg hs, hnone]

/-- C1 witness: entering "2.5" with the field previously absent stores
the rational 5/2. -/
theorem numericFieldOnChange_spec_witness :
    numericFieldOnChange none "2.5" = some (mkRat 5 2) ∧ (mkRat 5 2 : ℚ) = decodeNumeric "2.5" :=
  (numericFieldOnChange_spec none "2.5").1 (mkRat 5 2) (by decide)

/-- C9: every value a numeric input stores is produced by a successful
decode, hence is strictly positive and came from a pattern-matching
string; "0" matches the input pattern yet is rejected (the field keeps
its old value), and the empty string sets the field to absent. -/
theorem numericField_stores_only_valid (cur : Option ℚ) (s : String) (v : ℚ) :
    (numericInputCodec.safeDecode s = some v →
      0 < v ∧ matchesNumericPattern s = true) ∧
    (numericFieldOnChange cur s = some v →
      cur = some v ∨ (0 < v ∧ matchesNumericPattern s = true)) ∧
    matchesNumericPattern "0" = true ∧
    numericFieldOnChange cur "0" = cur ∧
    numericFieldOnChange cur "" = none := by
  have hdec : ∀ t w, numericInputCodec.safeDecode t = some w →
      0 < w ∧ matchesNumericPattern t = true := by
    intro t w h
    unfold numericInputCodec.safeDecode at h
    split at h
    · split at h
      · have hw : w = decodeNumeric t := (Option.some.injEq _ _ ▸ h).symm
        subst hw
        constructor
        · assumption
        · assumption
      · exact absurd h (by simp)
    · exact absurd h (by simp)
  refine ⟨hdec s v, ?_, by decide, by rfl, by rfl⟩
  intro h
  unfold numericFieldOnChange at h
  split at h
  · exact absurd h (by simp)
  · revert h
    split
    · intro h
      right
      have := hdec s _ (by assumption)
      have hv : v = _ := (Option.some.injEq _ _ ▸ h).symm
      subst hv
      exact this
    · intro h
      left
      exact h

/-- C9 witness: at the stored value 5/2 obtained from "2.5", the decode
is positive and the string matches the pattern; "0" is rejected and ""
clears the field. -/
theorem numericField_stores_only_valid_witness :
    (0 < (mkRat 5 2 : ℚ) ∧ matchesNumericPattern "2.5" = true) ∧
    matchesNumericPattern "0" = true ∧
    numericFieldOnChange (some 3) "0" = some 3 ∧
    numericFieldOnChange (some 3) "" = none := by
  have h := numericField_stores_only_valid (some 3) "2.5" (mkRat 5 2)
  exact ⟨h.1 (by decide), h.2.2.1, (numericField_stores_only_valid (some 3) "0" 0).2.2.2.1, h.2.2.2.2⟩

/-! ### Render-time defaults (app.tsx lines 284-298 and 438-451) -/

/-- Padding applied to the outer container: `` `${spacing || 48}px` ``
(app.tsx line 285). JavaScript `||` treats the number 0 as falsy, so
both an absent and a zero spacing yield 48. -/
def appliedSpacing : Option ℚ → ℚ
  | none => 48
  | some v => if v = 0 then 48 else v

/-- Scale applied to the main background layer: `scale: scale ?? 1.25`
(app.tsx line 297). -/
def appliedScale (scale : Option ℚ) : ℚ := scale.getD (mkRat 5 4)

/-- Inline style of the blurred background copy behind the code layer
(app.tsx lines 438-451). -/
structure BlurredBackgroundStyle where
  scale : ℚ
  blur : ℚ
  opacity : ℚ
deriving DecidableEq

/-- The blurred background layer: `scale: scale ?? 1.25`,
`filter: blur(${blur ?? 10}px)`, and the hard-coded `opacity: 0.2`
(app.tsx lines 447-449). -/
def blurredBackgroundStyle (scale blur : Option ℚ) : BlurredBackgroundStyle :=
  { scale := scale.getD (mkRat 5 4), blur := blur.getD 10, opacity := mkRat 2 10 }

/-- C2 counterexample: with every optional field absent, the only
opacity the render surface applies is the blurred layer's hard-coded
0.2, not 0.8. -/
theorem blurredOpacity_not_point_eight :
    (blurredBackgroundStyle none none).opacity = mkRat 2 10 ∧
      (mkRat 2 10 : ℚ) ≠ mkRat 8 10 := by
  exact ⟨rfl, by decide⟩

/-- C2 (amended): with all optional numeric settings absent the render
surface applies scale 1.25, spacing 48 and blur 10; the blurred
background layer's opacity is the constant 0.2 (there is no opacity
setting). -/
theorem renderDefaults :
    appliedScale none = mkRat 5 4 ∧
    appliedSpacing none = 48 ∧
    (blurredBackgroundStyle none none).scale = mkRat 5 4 ∧
    (blurredBackgroundStyle none none).blur = 10 ∧
    (blurredBackgroundStyle none none).opacity = mkRat 2 10 :=
  ⟨rfl, rfl, rfl, rfl, rfl⟩

/-! ### The string handed to the highlighter (app.tsx line 149) -/

/-- The first argument of `codeToHtml`: `code ? code + ' ' : ''`
(app.tsx line 149). JavaScript treats both `undefined` and the empty
string as falsy. -/
def highlightInput : Option String → String
  | none => ""
  | some c => if c = "" then "" else c ++ " "

/-- C4 counterexample: when the stored code text is the empty string the
highlighter receives `""`, not `"" ++ " "`: no trailing space is
appended. -/
theorem highlightInput_empty_code :
    highlightInput (some "") = "" ∧ ("" : String) ≠ "" ++ " " := by
  constructor
  · rfl
  · intro h
    exact absurd (congrArg String.length h) (by decide)

/-- C4 (amended): for every nonempty stored code text the highlighter
receives the code with exactly one trailing space appended; for an empty
or absent code text it receives the empty string. -/
theorem highlightInput_spec (c : String) (h : c ≠ "") :
    highlightInput (some c) = c ++ " " ∧
    highlightInput (some "") = "" ∧
    highlightInput none = "" := by
  refine ⟨?_, rfl, rfl⟩
  simp only [highlightInput]
  rw [if_neg h]

/-- C4 witness at the one-character code text "a". -/
theorem highlightInput_spec_witness :
    highlightInput (some "a") = "a" ++ " " :=
  (highlightInput_spec "a" (by decide)).1

/-! ### Tab key handling (app.tsx lines 403-426) -/

/-- The Tab branch of the textarea `onKeyDown` handler: the new value is
`value.substring(0, start) + '\t' + value.substring(end)` and the cursor
is repositioned to `start + 1`. Text is modelled as its character
list. -/
def tabKeyDown (text : List Char) (selStart selEnd : Nat) : List Char × Nat :=
  (text.take selStart ++ '\t' :: text.drop selEnd, selStart + 1)

/-- C5: with no selection (start = end = p ≤ n), pressing Tab inserts
exactly one tab character at position p, yields text of length n + 1,
and puts the cursor at p + 1. -/
theorem tabKeyDown_insert (t : List Char) (p : Nat) (hp : p ≤ t.length) :
    (tabKeyDown t p p).1 = t.take p ++ '\t' :: t.drop p ∧
    (tabKeyDown t p p).1.length = t.length + 1 ∧
    (tabKeyDown t p p).2 = p + 1 := by
  refine ⟨rfl, ?_, rfl⟩
  simp only [tabKeyDown, List.length_append, List.length_take, List.length_cons,
    List.length_drop]
  omega

/-- C5 witness: inserting a tab in "ab" at cursor position 1. -/
theorem tabKeyDown_insert_witness :
    (tabKeyDown ['a', 'b'] 1 1).1 = ['a', '\t', 'b'] ∧
    (tabKeyDown ['a', 'b'] 1 1).1.length = 3 ∧
    (tabKeyDown ['a', 'b'] 1 1).2 = 2 :=
  tabKeyDown_insert ['a', 'b'] 1 (by decide)

/-! ### Exporter (app.tsx lines 249-268) -/

/-- Options passed to `domToImage.toJpeg` in `saveImage`. -/
structure ExportOptions where
  quality : ℚ
  width : Nat
  height : Nat
  transform : String
  transformOrigin : String
deriving DecidableEq

/-- The export `saveImage` triggers: a JPEG rasterization plus the
download it starts. -/
structure ExportAction where
  options : ExportOptions
  format : String
  filename : String
deriving DecidableEq

/-- `saveImage` (app.tsx lines 249-268): rasterize the code surface via
`domToImage.toJpeg` with quality 1, width and height four times the
surface's client size, a `scale(4)` transform, and download the data URL
as `code-salt.jpg`. -/
def saveImage (clientWidth clientHeight : Nat) : ExportAction :=
  { options :=
      { quality := 1
        width := clientWidth * 4
        height := clientHeight * 4
        transform := "scale(4)"
        transformOrigin := "top left" }
    format := "jpeg"
    filename := "code-salt.jpg" }

/-- C7: for every displayed size, the exporter rasterizes at exactly 4
times the displayed width and height, at maximum (1.0) encode quality,
as a JPEG downloaded under the fixed name `code-salt.jpg`. -/
theorem saveImage_spec (w h : Nat) :
    (saveImage w h).options.width = w * 4 ∧
    (saveImage w h).options.height = h * 4 ∧
    (saveImage w h).options.quality = 1 ∧
    (saveImage w h).options.transform = "scale(4)" ∧
    (saveImage w h).format = "jpeg" ∧
    (saveImage w h).filename = "code-salt.jpg" :=
  ⟨rfl, rfl, rfl, rfl, rfl, rfl⟩

/-! ### Background-color extraction (app.tsx lines 156-159) -/

/-- A character of the regex class `[a-zA-Z0-9]`. -/
def isAlnumChar (c : Char) : Bool := c.isDigit || c.isAlpha

/-- The literal part of the pattern `background-color:#`. -/
def bgTokenHead : List Char := "background-color:#".toList

/-- Try to match `background-color:#[a-zA-Z0-9]{6}` at the head of the
list; on success return the matched text with the `background-color:`
prefix stripped (the `.replace` on app.tsx line 159), i.e. `#` followed
by the six characters. -/
def matchBgAt (l : List Char) : Option String :=
  if bgTokenHead.isPrefixOf l then
    let six := (l.drop bgTokenHead.length).take 6
    if six.length == 6 && six.all isAlnumChar then
      some (String.mk ('#' :: six))
    else none
  else none

/-- First match of `/background-color:\x23([a-zA-Z0-9]\x7b6\x7d)/` in a
character list, scanning left to right. -/
def extractBgFrom : List Char → Option String
  | [] => none
  | c :: rest =>
    match matchBgAt (c :: rest) with
    | some s => some s
    | none => extractBgFrom rest

/-- The extraction on app.tsx lines 156-159: the first regex match in
the generated markup, with `background-color:` stripped, giving the
theme's background color as `#` plus six alphanumerics; `none` when the
markup has no such token. -/
def extractBackgroundColor (html : String) : Option String :=
  extractBgFrom html.toList

/-! ### Background color classifier -/

/-- Value of a hexadecimal digit (0 for characters outside
`[0-9a-fA-F]`). -/
def hexDigitVal (c : Char) : Nat :=
  if c.isDigit then c.toNat - 48
  else if 'a' ≤ c && c ≤ 'f' then c.toNat - 87
  else if 'A' ≤ c && c ≤ 'F' then c.toNat - 55
  else 0

/-- Modelled from the spec: `isLight` is imported from
`src/utils/luma.ts`, which is not under `src/`. Spec section 4.3: given
a 6-hex-digit RGB color, convert to an RGB triplet, compute the
broadcast luma 0.299R + 0.587G + 0.114B on a 0-255 scale, and classify
as light when the luma is at or above the threshold 150 (below the
threshold is dark). The color reaches the classifier carrying the
leading `#` kept by the extraction above. -/
def isLight (hex : String) : Bool :=
  match hex.toList with
  | ['#', r1, r2, g1, g2, b1, b2] =>
    let r := 16 * hexDigitVal r1 + hexDigitVal r2
    let g := 16 * hexDigitVal g1 + hexDigitVal g2
    let b := 16 * hexDigitVal b1 + hexDigitVal b2
    decide (150 * 1000 ≤ 299 * r + 587 * g + 114 * b)
  | _ => false

/-! ### The highlight effect (app.tsx lines 123-170) -/

/-- The derived color-scheme flag. -/
inductive ColorScheme where
  | light
  | dark
deriving DecidableEq

/-- The state the highlight effect reads and writes: the displayed
markup (`html`), the extracted background color, the derived color
scheme, and the persisted language and theme settings. -/
structure HighlightState where
  html : String
  backgroundColor : String
  colorScheme : ColorScheme
  language : Option String
  theme : Option String
deriving DecidableEq

/-- One run of the async `highlight` body (app.tsx lines 123-170),
parameterised by the highlighter: `loadedLangs` is
`getLoadedLanguages()`, `knownThemes` the themes that are loaded or that
`loadTheme` can load (an unknown theme makes `loadTheme` reject, landing
in the `catch` with no state change), and `hl code lang theme` is
`codeToHtml`. `code`, `language` and `theme` are the values captured by
the effect closure when the run started. If the captured language is not
loaded the effect resets the language setting to `tsx` and returns; if
the markup contains no background-color token the effect returns without
touching state; otherwise it stores the markup, the extracted color, and
the color scheme derived by the classifier. -/
def highlightStep (loadedLangs knownThemes : List String)
    (hl : String → String → String → String)
    (code language theme : Option String)
    (s : HighlightState) : HighlightState :=
  let currentLang := language.getD "tsx"
  let currentTheme := theme.getD "catppuccin-latte"
  if loadedLangs.contains currentLang = false then
    { s with language := some "tsx" }
  else if knownThemes.contains currentTheme = false then
    s
  else
    let html := hl (highlightInput code) currentLang currentTheme
    match extractBackgroundColor html with
    | none => s
    | some color =>
      { s with
          html := html
          backgroundColor := color
          colorScheme := if isLight color then ColorScheme.light else ColorScheme.dark }

/-! ### User interactions (the handlers wired in the JSX) -/

/-- The full settings-and-render state a user interaction can touch. -/
structure FullState where
  code : Option String
  scale : Option ℚ
  spacing : Option ℚ
  blur : Option ℚ
  language : Option String
  theme : Option String
  font : Option String
  title : Option String
  background : Option String
  layout : Nat
  showNotice : Bool
  html : String
  backgroundColor : String
  colorScheme : ColorScheme
deriving DecidableEq

/-- Every user interaction handled in the JSX: typing in the textarea,
the Tab key, the three numeric inputs, the language and theme selects,
the font and title inputs, the layout buttons, a background upload
(modelled by the data URI the compressor produced), and dismissing the
font notice. -/
inductive UserEvent where
  | codeChange (v : String)
  | tabKey (selStart selEnd : Nat)
  | scaleChange (v : String)
  | spacingChange (v : String)
  | blurChange (v : String)
  | languageChange (v : String)
  | themeChange (v : String)
  | fontChange (v : String)
  | titleChange (v : String)
  | layoutClick (i : Nat)
  | backgroundChange (dataUri : String)
  | dismissNotice

/-- Effect of each user interaction on the state, following the
handlers in app.tsx: none of them writes `html`, `backgroundColor` or
`colorScheme` (those are only written by the highlight effect). -/
def applyUserEvent (s : FullState) : UserEvent → FullState
  | .codeChange v => { s with code := some v }
  | .tabKey a b =>
    { s with code := some (String.mk (tabKeyDown (s.code.getD "").toList a b).1) }
  | .scaleChange v => { s with scale := numericFieldOnChange s.scale v }
  | .spacingChange v => { s with spacing := numericFieldOnChange s.spacing v }
  | .blurChange v => { s with blur := numericFieldOnChange s.blur v }
  | .languageChange v => { s with language := some v }
  | .themeChange v => { s with theme := some v }
  | .fontChange v => { s with font := some v }
  | .titleChange v => { s with title := some v }
  | .layoutClick i => { s with layout := i + 1 }
  | .backgroundChange d => { s with background := some d }
  | .dismissNotice => { s with showNotice := false }

/-! ### Interleaved highlight completions (spec section 5) -/

/-- The inputs one in-flight `highlight` call captured when its effect
ran. -/
structure Invocation where
  code : Option String
  language : Option String
  theme : Option String

/-- Apply the completions of in-flight highlight calls in the order they
complete. Each completion applies its own result unconditionally — the
code has no keying of results to inputs and discards nothing. -/
def runCompletions (loadedLangs knownThemes : List String)
    (hl : String → String → String → String)
    (s : HighlightState) : List Invocation → HighlightState
  | [] => s
  | inv :: rest =>
    runCompletions loadedLangs knownThemes hl
      (highlightStep loadedLangs knownThemes hl inv.code inv.language inv.theme s) rest

/-! ### Concrete data used by the closed witnesses -/

/-- A highlighter stub whose markup carries a fixed catppuccin-mocha
background token. -/
def demoHl : String → String → String → String :=
  fun _ _ _ => "background-color:#1e1e2e"

/-- A highlighter stub whose markup embeds the code it was given, so
different inputs produce different markup. -/
def hlByCode : String → String → String → String :=
  fun code _ _ => "background-color:#1e1e2e " ++ code

/-- A pre-highlight state with default language and theme settings. -/
def demoState : HighlightState :=
  ⟨"", "", ColorScheme.dark, none, none⟩

/-- A full state with every optional setting absent. -/
def demoFull : FullState :=
  ⟨none, none, none, none, none, none, none, none, none, 1, true, "", "",
    ColorScheme.dark⟩

/-- The earlier of two in-flight highlight invocations. -/
def invA : Invocation := ⟨some "a", none, none⟩

/-- The later of two in-flight highlight invocations. -/
def invB : Invocation := ⟨some "b", none, none⟩

/-! ### C3: unknown language or theme -/

/-- C3 counterexample: with language `tsx` loaded and the stored theme
`missing-theme` unknown, the run leaves the theme setting untouched at
`missing-theme` — the offending theme is not reset to a known-good
default. -/
theorem highlightStep_theme_not_reset :
    (highlightStep ["tsx"] ["catppuccin-latte"] (fun _ _ _ => "") (some "x")
        (some "tsx") (some "missing-theme")
        ⟨"prev", "#000000", ColorScheme.dark, some "tsx", some "missing-theme"⟩).theme
      = some "missing-theme" ∧
    (["catppuccin-latte"] : List String).contains "missing-theme" = false := by
  exact ⟨rfl, rfl⟩

/-- C3 (amended): when the current language is not loaded, no
highlighting call is made, the previous markup, background color and
color scheme stay, and the language setting is reset to the default
`tsx`; when the language is loaded but the current theme is unknown, the
`loadTheme` call rejects and the run changes nothing — the previous
render stays and the theme setting is not reset. -/
theorem highlightStep_unknown_spec (kl kt : List String)
    (hl : String → String → String → String) (code : Option String)
    (s : HighlightState) :
    (kl.contains (s.language.getD "tsx") = false →
      highlightStep kl kt hl code s.language s.theme s = { s with language := some "tsx" }) ∧
    (kl.contains (s.language.getD "tsx") = true →
      kt.contains (s.theme.getD "catppuccin-latte") = false →
      highlightStep kl kt hl code s.language s.theme s = s) := by
  constructor
  · intro h
    simp at h
    simp [highlightStep, h]
  · intro h1 h2
    simp at h1 h2
    simp [highlightStep, h1, h2]

/-- C3 witness: an unloaded language `elixir` resets the language to
`tsx` keeping the render, and an unknown theme `missing-theme` leaves
the state — including the theme — untouched. -/
theorem highlightStep_unknown_spec_witness :
    highlightStep ["tsx"] ["catppuccin-latte"] demoHl none (some "elixir") none
        ⟨"prev", "#000000", ColorScheme.dark, some "elixir", none⟩
      = { html := "prev", backgroundColor := "#000000",
          colorScheme := ColorScheme.dark, language := some "tsx", theme := none } ∧
    highlightStep ["tsx"] ["catppuccin-latte"] demoHl none (some "tsx")
        (some "missing-theme")
        ⟨"prev", "#000000", ColorScheme.dark, some "tsx", some "missing-theme"⟩
      = ⟨"prev", "#000000", ColorScheme.dark, some "tsx", some "missing-theme"⟩ :=
  ⟨(highlightStep_unknown_spec ["tsx"] ["catppuccin-latte"] demoHl none
      ⟨"prev", "#000000", ColorScheme.dark, some "elixir", none⟩).1 (by decide),
   (highlightStep_unknown_spec ["tsx"] ["catppuccin-latte"] demoHl none
      ⟨"prev", "#000000", ColorScheme.dark, some "tsx", some "missing-theme"⟩).2
      (by decide) (by decide)⟩

/-! ### C6: color scheme always follows the classifier -/

/-- C6: after a completed highlight that resolves a background color,
the color scheme equals the classifier's verdict on that color and the
stored background color is that color; and no user interaction writes
the color scheme. -/
theorem colorScheme_matches_classifier (kl kt : List String)
    (hl : String → String → String → String) (code : Option String)
    (s : HighlightState) (c : String) (fs : FullState) (e : UserEvent)
    (hlang : kl.contains (s.language.getD "tsx") = true)
    (htheme : kt.contains (s.theme.getD "catppuccin-latte") = true)
    (hc : extractBackgroundColor
        (hl (highlightInput code) (s.language.getD "tsx")
          (s.theme.getD "catppuccin-latte")) = some c) :
    (highlightStep kl kt hl code s.language s.theme s).colorScheme
      = (if isLight c then ColorScheme.light else ColorScheme.dark) ∧
    (highlightStep kl kt hl code s.language s.theme s).backgroundColor = c ∧
    (applyUserEvent fs e).colorScheme = fs.colorScheme := by
  simp at hlang htheme
  refine ⟨?_, ?_, ?_⟩
  · simp [highlightStep, hlang, htheme, hc]
  · simp [highlightStep, hlang, htheme, hc]
  · cases e <;> rfl

/-- C6 witness: highlighting with the default language and theme over a
markup carrying `background-color:#1e1e2e` yields colorScheme = the
classifier's verdict on `#1e1e2e` (dark) and stores that color;
dismissing the notice leaves the color scheme alone. -/
theorem colorScheme_matches_classifier_witness :
    (highlightStep ["tsx"] ["catppuccin-latte"] demoHl none demoState.language
        demoState.theme demoState).colorScheme
      = (if isLight "#1e1e2e" then ColorScheme.light else ColorScheme.dark) ∧
    (highlightStep ["tsx"] ["catppuccin-latte"] demoHl none demoState.language
        demoState.theme demoState).backgroundColor = "#1e1e2e" ∧
    (applyUserEvent demoFull UserEvent.dismissNotice).colorScheme
      = demoFull.colorScheme :=
  colorScheme_matches_classifier ["tsx"] ["catppuccin-latte"] demoHl none
    demoState "#1e1e2e" demoFull UserEvent.dismissNotice
    (by decide) (by decide) (by decide)

/-! ### C10: markup without a background-color token -/

/-- C10: when the generated markup contains no
`background-color:` + six-alphanumerics token, the run changes nothing:
markup, background color and color scheme keep their previous values. -/
theorem highlightStep_no_bg_token_noop (kl kt : List String)
    (hl : String → String → String → String) (code : Option String)
    (s : HighlightState)
    (hlang : kl.contains (s.language.getD "tsx") = true)
    (htheme : kt.contains (s.theme.getD "catppuccin-latte") = true)
    (hnone : extractBackgroundColor
        (hl (highlightInput code) (s.language.getD "tsx")
          (s.theme.getD "catppuccin-latte")) = none) :
    (highlightStep kl kt hl code s.language s.theme s).html = s.html ∧
    (highlightStep kl kt hl code s.language s.theme s).backgroundColor
      = s.backgroundColor ∧
    (highlightStep kl kt hl code s.language s.theme s).colorScheme
      = s.colorScheme := by
  simp at hlang htheme
  refine ⟨?_, ?_, ?_⟩ <;> simp [highlightStep, hlang, htheme, hnone]

/-- C10 witness: a highlighter that outputs the bare string `plain`
resolves no color, and the run keeps the previous markup, color and
scheme. -/
theorem highlightStep_no_bg_token_noop_witness :
    (highlightStep ["tsx"] ["catppuccin-latte"] (fun _ _ _ => "plain") none
        demoState.language demoState.theme demoState).html = demoState.html ∧
    (highlightStep ["tsx"] ["catppuccin-latte"] (fun _ _ _ => "plain") none
        demoState.language demoState.theme demoState).backgroundColor
      = demoState.backgroundColor ∧
    (highlightStep ["tsx"] ["catppuccin-latte"] (fun _ _ _ => "plain") none
        demoState.language demoState.theme demoState).colorScheme
      = demoState.colorScheme :=
  highlightStep_no_bg_token_noop ["tsx"] ["catppuccin-latte"]
    (fun _ _ _ => "plain") none demoState (by decide) (by decide) (by decide)

/-! ### C8: superseded in-flight highlights -/

/-- C8 counterexample: `invA` (code "a") was invoked before `invB`
(code "b"), so `invB` supersedes `invA`; when completions arrive in the
inverted order B then A, the final markup is A's result, which differs
from B's result — the superseded invocation's result did overwrite the
later one's, because nothing keys results to inputs. -/
theorem staleResultOverwrites :
    (runCompletions ["tsx"] ["catppuccin-latte"] hlByCode demoState
        [invB, invA]).html
      = hlByCode (highlightInput invA.code) "tsx" "catppuccin-latte" ∧
    hlByCode (highlightInput invA.code) "tsx" "catppuccin-latte"
      ≠ hlByCode (highlightInput invB.code) "tsx" "catppuccin-latte" := by
  exact ⟨rfl, by decide⟩

/-- C8 (amended): completions are applied unconditionally in completion
order, so the last completed invocation's result stands (last completion
wins) — which coincides with the latest input only when completion order
preserves invocation order. Stated for any completion sequence ending in
an invocation whose language is loaded, whose theme is known, and whose
markup resolves a color. -/
theorem runCompletions_last_completion_wins (kl kt : List String)
    (hl : String → String → String → String) (s : HighlightState)
    (invs : List Invocation) (inv : Invocation) (c : String)
    (hlang : kl.contains (inv.language.getD "tsx") = true)
    (htheme : kt.contains (inv.theme.getD "catppuccin-latte") = true)
    (hc : extractBackgroundColor
        (hl (highlightInput inv.code) (inv.language.getD "tsx")
          (inv.theme.getD "catppuccin-latte")) = some c) :
    (runCompletions kl kt hl s (invs ++ [inv])).html
      = hl (highlightInput inv.code) (inv.language.getD "tsx")
          (inv.theme.getD "catppuccin-latte") ∧
    (runCompletions kl kt hl s (invs ++ [inv])).backgroundColor = c := by
  simp at hlang htheme
  induction invs generalizing s with
  | nil =>
    simp only [List.nil_append, runCompletions]
    constructor <;> simp [highlightStep, hlang, htheme, hc]
  | cons x xs ih =>
    simp only [List.cons_append, runCompletions]
    exact ih _

/-- C8 witness: with completions in invocation order A then B, the final
markup is B's result and the final color is the one B resolved. -/
theorem runCompletions_last_completion_wins_witness :
    (runCompletions ["tsx"] ["catppuccin-latte"] hlByCode demoState
        ([invA] ++ [invB])).html
      = hlByCode (highlightInput invB.code) "tsx" "catppuccin-latte" ∧
    (runCompletions ["tsx"] ["catppuccin-latte"] hlByCode demoState
        ([invA] ++ [invB])).backgroundColor = "#1e1e2e" :=
  runCompletions_last_completion_wins ["tsx"] ["catppuccin-latte"] hlByCode
    demoState [invA] invB "#1e1e2e" (by decide) (by decide) (by decide)

end CodeSalt
